import Mathlib

/-!
Formal model of the `Escrow` Solidity contract (time-boxed escrow ledger).

The contract state is embedded shallowly: the two storage mappings become
total functions with the EVM default value for absent keys, `escrowCount`
and the reentrancy flag `_locked` become plain fields, and the contract's
ether balance is tracked explicitly.  Each external function becomes a
Lean function from the pre-state (plus the transaction environment:
`msg.sender`, `msg.value`, `block.timestamp`, and the outcome of the
low-level value transfer) to `Except EscrowError ...`; an `Except.error`
result models an EVM revert, which discards every storage write made
during the call, so the caller-visible post-state on failure is exactly
the pre-state.
-/

namespace Avalanche

/-- The `EscrowTransaction` struct of the contract.  Addresses and
`uint256` values are modelled as `Nat` (address zero is `0`). -/
structure EscrowTransaction where
  sender : Nat
  recipient : Nat
  amount : Nat
  createdAt : Nat
  releaseTime : Nat
  isReleased : Bool
  isReturned : Bool
  isActive : Bool
deriving Repr, DecidableEq

/-- The default (all-zero) struct value that a Solidity mapping returns
for a key that was never written. -/
def zeroTransaction : EscrowTransaction :=
  ⟨0, 0, 0, 0, 0, false, false, false⟩

/-- Contract storage: `escrows`, `userEscrows`, `escrowCount`, the
reentrancy flag `_locked`, and the contract's ether balance. -/
structure EscrowState where
  escrows : Nat → EscrowTransaction
  userEscrows : Nat → List Nat
  escrowCount : Nat
  locked : Bool
  balance : Nat

/-- Freshly deployed contract: empty mappings, zero count, unlocked. -/
def initState : EscrowState :=
  ⟨fun _ => zeroTransaction, fun _ => [], 0, false, 0⟩

/-- `RETURN_WINDOW` constant of the contract (300 seconds). -/
def RETURN_WINDOW : Nat := 300

/-- One revert reason per `require` in the contract. -/
inductive EscrowError where
  | reentrantCall          -- "ReentrancyGuard: reentrant call"
  | escrowNotFound         -- "Escrow does not exist"
  | notAuthorized          -- "Not authorized"
  | zeroAmount             -- "Amount must be greater than 0"
  | invalidRecipient       -- "Invalid recipient address"
  | selfRecipient          -- "Cannot send to yourself"
  | onlyRecipientCanRelease -- "Only recipient can release"
  | onlySenderCanReturn    -- "Only sender can return"
  | alreadyReleased        -- "Already released"
  | alreadyReturned        -- "Already returned"
  | stillInReturnWindow    -- "Still in return window"
  | returnWindowExpired    -- "Return window expired"
  | transferFailed         -- "Transfer failed"
  | returnFailed           -- "Return failed"
deriving Repr, DecidableEq

/-- Models `keccak256(abi.encodePacked(msg.sender, _recipient, msg.value,
block.timestamp, escrowCount++))`.  The hash is treated as collision-free
on these packed inputs, so the model uses the injective `Nat.pair`
encoding; the last component is the monotonic counter. -/
def escrowIdOf (sender recipient value timestamp count : Nat) : Nat :=
  Nat.pair (Nat.pair (Nat.pair (Nat.pair sender recipient) value) timestamp) count

/-- The counter component an escrow id was derived from. -/
def idCounter (id : Nat) : Nat := id.unpair.2

/-- `createEscrow(_recipient)`: requires `msg.value > 0`, a non-zero
recipient distinct from the caller; stores the new record, pushes the id
onto both parties' `userEscrows`, increments `escrowCount` (the hash uses
the pre-increment value), and custodies `msg.value`.  No `nonReentrant`
modifier is present on this function in the source. -/
def createEscrow (s : EscrowState) (msgSender msgValue recipient timestamp : Nat) :
    Except EscrowError (EscrowState × Nat) :=
  if msgValue = 0 then .error .zeroAmount
  else if recipient = 0 then .error .invalidRecipient
  else if recipient = msgSender then .error .selfRecipient
  else
    let escrowId := escrowIdOf msgSender recipient msgValue timestamp s.escrowCount
    let releaseTime := timestamp + RETURN_WINDOW
    let record : EscrowTransaction :=
      ⟨msgSender, recipient, msgValue, timestamp, releaseTime, false, false, true⟩
    let escrows1 := fun i => if i = escrowId then record else s.escrows i
    let user1 := fun u => if u = msgSender then s.userEscrows u ++ [escrowId] else s.userEscrows u
    let user2 := fun u => if u = recipient then user1 u ++ [escrowId] else user1 u
    .ok ({ s with
            escrows := escrows1
            userEscrows := user2
            escrowCount := s.escrowCount + 1
            balance := s.balance + msgValue }, escrowId)

/-- `releaseEscrow(escrowId)`: modifiers `nonReentrant`, `escrowExists`,
`onlyParties` run in order, then the body's requires; the record is
marked released/inactive before the external value transfer, and a failed
transfer reverts the whole call (modelled by `Except.error`). -/
def releaseEscrow (s : EscrowState) (msgSender escrowId timestamp : Nat)
    (transferOk : Bool) : Except EscrowError EscrowState :=
  if s.locked then .error .reentrantCall
  else if ¬ (s.escrows escrowId).isActive then .error .escrowNotFound
  else if ¬ (msgSender = (s.escrows escrowId).sender ∨
             msgSender = (s.escrows escrowId).recipient) then .error .notAuthorized
  else if ¬ msgSender = (s.escrows escrowId).recipient then .error .onlyRecipientCanRelease
  else if (s.escrows escrowId).isReleased then .error .alreadyReleased
  else if (s.escrows escrowId).isReturned then .error .alreadyReturned
  else if timestamp < (s.escrows escrowId).releaseTime then .error .stillInReturnWindow
  else
    let r := s.escrows escrowId
    let r2 := { r with isReleased := true, isActive := false }
    let s2 := { s with
                 escrows := fun i => if i = escrowId then r2 else s.escrows i
                 balance := s.balance - r.amount }
    if transferOk then .ok s2 else .error .transferFailed

/-- `returnEscrow(escrowId)`: modifiers `nonReentrant`, `escrowExists`
(no `onlyParties`), then the body's requires; marks the record
returned/inactive before transferring the funds back to the sender, and
a failed transfer reverts the whole call. -/
def returnEscrow (s : EscrowState) (msgSender escrowId timestamp : Nat)
    (transferOk : Bool) : Except EscrowError EscrowState :=
  if s.locked then .error .reentrantCall
  else if ¬ (s.escrows escrowId).isActive then .error .escrowNotFound
  else if ¬ msgSender = (s.escrows escrowId).sender then .error .onlySenderCanReturn
  else if (s.escrows escrowId).isReleased then .error .alreadyReleased
  else if (s.escrows escrowId).isReturned then .error .alreadyReturned
  else if ¬ timestamp < (s.escrows escrowId).releaseTime then .error .returnWindowExpired
  else
    let r := s.escrows escrowId
    let r2 := { r with isReturned := true, isActive := false }
    let s2 := { s with
                 escrows := fun i => if i = escrowId then r2 else s.escrows i
                 balance := s.balance - r.amount }
    if transferOk then .ok s2 else .error .returnFailed

/-- `getEscrow(escrowId)`: view, returns `escrows[escrowId]` (the
all-zero struct when no record was ever stored under the id). -/
def getEscrow (s : EscrowState) (escrowId : Nat) : EscrowTransaction :=
  s.escrows escrowId

/-- `getUserEscrows(user)`: view, returns the index sequence. -/
def getUserEscrows (s : EscrowState) (user : Nat) : List Nat :=
  s.userEscrows user

/-- `getEscrowStatus(escrowId)`: view, returns
`(isActive, isReleased, isReturned, timeRemaining)` with the guarded
subtraction of the source. -/
def getEscrowStatus (s : EscrowState) (timestamp escrowId : Nat) :
    Bool × Bool × Bool × Nat :=
  let e := s.escrows escrowId
  (e.isActive, e.isReleased, e.isReturned,
   if timestamp < e.releaseTime then e.releaseTime - timestamp else 0)

/-- `canReturn(escrowId)`: view. -/
def canReturn (s : EscrowState) (timestamp escrowId : Nat) : Bool :=
  let e := s.escrows escrowId
  e.isActive && !e.isReleased && !e.isReturned && decide (timestamp < e.releaseTime)

/-- `canRelease(escrowId)`: view. -/
def canRelease (s : EscrowState) (timestamp escrowId : Nat) : Bool :=
  let e := s.escrows escrowId
  e.isActive && !e.isReleased && !e.isReturned && decide (e.releaseTime ≤ timestamp)

/-- One external transaction against the contract, with its environment:
caller, attached value, block timestamp, and (for the two paying
operations) whether the low-level transfer succeeds. -/
inductive Op where
  | create (msgSender msgValue recipient timestamp : Nat)
  | release (msgSender escrowId timestamp : Nat) (transferOk : Bool)
  | ret (msgSender escrowId timestamp : Nat) (transferOk : Bool)

/-- Post-state of one transaction: a revert leaves the state unchanged. -/
def applyOp (s : EscrowState) : Op → EscrowState
  | .create ms mv rcp ts =>
      match createEscrow s ms mv rcp ts with
      | .ok p => p.1
      | .error _ => s
  | .release ms id ts ok =>
      match releaseEscrow s ms id ts ok with
      | .ok s2 => s2
      | .error _ => s
  | .ret ms id ts ok =>
      match returnEscrow s ms id ts ok with
      | .ok s2 => s2
      | .error _ => s

/-- Run a sequence of transactions. -/
def runOps (s : EscrowState) : List Op → EscrowState
  | [] => s
  | op :: ops => runOps (applyOp s op) ops

/-- A contract state reachable from deployment by some transaction
sequence. -/
def Reachable (s : EscrowState) : Prop :=
  ∃ ops : List Op, s = runOps initState ops

/-- Id(s) returned by one transaction: a successful `createEscrow`
returns its fresh escrow id, everything else returns none. -/
def newIds (s : EscrowState) : Op → List Nat
  | .create ms mv rcp ts =>
      match createEscrow s ms mv rcp ts with
      | .ok p => [p.2]
      | .error _ => []
  | _ => []

/-- All ids returned by the successful `createEscrow` calls of a
transaction sequence, in call order. -/
def createdIds (s : EscrowState) : List Op → List Nat
  | [] => []
  | op :: ops => newIds s op ++ createdIds (applyOp s op) ops

/-- Whether an `Except` result is a success. -/
def exceptIsOk {ε α : Type} : Except ε α → Bool
  | .ok _ => true
  | .error _ => false

/-- Well-formedness maintained by every transaction: the reentrancy
guard is released on every exit path, and every record ever written has
a positive amount, an id whose counter component is below the current
`escrowCount`, `isActive` equal to `!(isReleased || isReturned)`, and
never both terminal flags set. -/
def Inv (s : EscrowState) : Prop :=
  s.locked = false ∧
  ∀ id, s.escrows id = zeroTransaction ∨
    (0 < (s.escrows id).amount ∧
     idCounter id < s.escrowCount ∧
     (s.escrows id).isActive = (!((s.escrows id).isReleased || (s.escrows id).isReturned)) ∧
     ¬((s.escrows id).isReleased = true ∧ (s.escrows id).isReturned = true))

/-- The id of the escrow created by the first transaction of the
concrete scenarios below (sender 1, recipient 2, 10 wei, at time 0,
counter 0). -/
def id1 : Nat := escrowIdOf 1 2 10 0 0

/-- Scenario prefix: one escrow created at time 0. -/
def trace0 : List Op := [.create 1 10 2 0]

/-- State after `trace0`: one active escrow `id1`, releaseTime 300. -/
def state0 : EscrowState := runOps initState trace0

/-- Scenario: create, then the sender returns inside the window. -/
def trace1 : List Op := [.create 1 10 2 0, .ret 1 id1 5 true]

/-- State after `trace1`: `id1` is returned and inactive. -/
def state1 : EscrowState := runOps initState trace1

/-- Scenario: create, then the recipient releases at the boundary. -/
def trace2 : List Op := [.create 1 10 2 0, .release 2 id1 300 true]

/-- State after `trace2`: `id1` is released and inactive. -/
def state2 : EscrowState := runOps initState trace2

/-- A state whose reentrancy flag is set, modelling a call arriving
while another mutating call is in flight. -/
def lockedState : EscrowState := { initState with locked := true }

/-! ### Ledger invariant and preservation lemmas -/

theorem idCounter_escrowIdOf (s r v t c : Nat) :
    idCounter (escrowIdOf s r v t c) = c := by
  simp [idCounter, escrowIdOf]

theorem inv_init : Inv initState := by
  refine ⟨rfl, fun id => Or.inl rfl⟩

theorem createEscrow_ok (s : EscrowState) (ms mv rcp ts : Nat)
    (s2 : EscrowState) (nid : Nat)
    (h : createEscrow s ms mv rcp ts = .ok (s2, nid)) :
    mv ≠ 0 ∧ rcp ≠ 0 ∧ rcp ≠ ms ∧
    nid = escrowIdOf ms rcp mv ts s.escrowCount ∧
    s2.escrows = (fun i => if i = nid then
        ⟨ms, rcp, mv, ts, ts + RETURN_WINDOW, false, false, true⟩ else s.escrows i) ∧
    s2.escrowCount = s.escrowCount + 1 ∧
    s2.locked = s.locked := by
  simp only [createEscrow] at h
  split_ifs at h with h1 h2 h3
  simp only [Except.ok.injEq, Prod.mk.injEq] at h
  obtain ⟨hs2, hid⟩ := h
  subst hs2
  subst hid
  exact ⟨h1, h2, h3, rfl, rfl, rfl, rfl⟩

theorem releaseEscrow_ok (s : EscrowState) (c id ts : Nat) (tok : Bool)
    (s2 : EscrowState) (h : releaseEscrow s c id ts tok = .ok s2) :
    s.locked = false ∧ (s.escrows id).isActive = true ∧
    c = (s.escrows id).recipient ∧
    (s.escrows id).isReleased = false ∧ (s.escrows id).isReturned = false ∧
    (s.escrows id).releaseTime ≤ ts ∧ tok = true ∧
    s2.escrows = (fun i => if i = id then
        { s.escrows id with isReleased := true, isActive := false }
      else s.escrows i) ∧
    s2.userEscrows = s.userEscrows ∧
    s2.escrowCount = s.escrowCount ∧
    s2.locked = s.locked := by
  simp only [releaseEscrow] at h
  split_ifs at h with h1 h2 h3 h4 h5 h6 h7 h8
  all_goals cases h
  exact ⟨by simpa using h1, by simpa using h2, by simpa using h4, by simpa using h5,
    by simpa using h6, by omega, h8, rfl, rfl, rfl, rfl⟩

theorem returnEscrow_ok (s : EscrowState) (c id ts : Nat) (tok : Bool)
    (s2 : EscrowState) (h : returnEscrow s c id ts tok = .ok s2) :
    s.locked = false ∧ (s.escrows id).isActive = true ∧
    c = (s.escrows id).sender ∧
    (s.escrows id).isReleased = false ∧ (s.escrows id).isReturned = false ∧
    ts < (s.escrows id).releaseTime ∧ tok = true ∧
    s2.escrows = (fun i => if i = id then
        { s.escrows id with isReturned := true, isActive := false }
      else s.escrows i) ∧
    s2.userEscrows = s.userEscrows ∧
    s2.escrowCount = s.escrowCount ∧
    s2.locked = s.locked := by
  simp only [returnEscrow] at h
  split_ifs at h with h1 h2 h3 h4 h5 h6 h7
  all_goals cases h
  exact ⟨by simpa using h1, by simpa using h2, by simpa using h3, by simpa using h4,
    by simpa using h5, by simpa using h6, h7, rfl, rfl, rfl, rfl⟩

theorem applyOp_create_of_error (s : EscrowState) (ms mv rcp ts : Nat)
    (e : EscrowError) (h : createEscrow s ms mv rcp ts = .error e) :
    applyOp s (.create ms mv rcp ts) = s := by
  simp [applyOp, h]

theorem applyOp_release_of_error (s : EscrowState) (c id ts : Nat) (tok : Bool)
    (e : EscrowError) (h : releaseEscrow s c id ts tok = .error e) :
    applyOp s (.release c id ts tok) = s := by
  simp [applyOp, h]

theorem applyOp_ret_of_error (s : EscrowState) (c id ts : Nat) (tok : Bool)
    (e : EscrowError) (h : returnEscrow s c id ts tok = .error e) :
    applyOp s (.ret c id ts tok) = s := by
  simp [applyOp, h]

theorem releaseEscrow_inactive (s : EscrowState) (c id ts : Nat) (tok : Bool)
    (hl : s.locked = false) (h : (s.escrows id).isActive = false) :
    releaseEscrow s c id ts tok = .error .escrowNotFound := by
  simp [releaseEscrow, hl, h]

theorem returnEscrow_inactive (s : EscrowState) (c id ts : Nat) (tok : Bool)
    (hl : s.locked = false) (h : (s.escrows id).isActive = false) :
    returnEscrow s c id ts tok = .error .escrowNotFound := by
  simp [returnEscrow, hl, h]

theorem zeroTransaction_amount : zeroTransaction.amount = 0 := rfl

theorem inv_applyOp (s : EscrowState) (h : Inv s) (op : Op) : Inv (applyOp s op) := by
  obtain ⟨hl, hrec⟩ := h
  cases op with
  | create ms mv rcp ts =>
    cases hc : createEscrow s ms mv rcp ts with
    | error e => rw [applyOp_create_of_error s ms mv rcp ts e hc]; exact ⟨hl, hrec⟩
    | ok p =>
      obtain ⟨s2, nid⟩ := p
      obtain ⟨hmv, -, -, hnid, hesc, hcount, hlock⟩ := createEscrow_ok s ms mv rcp ts s2 nid hc
      have happ : applyOp s (.create ms mv rcp ts) = s2 := by simp [applyOp, hc]
      rw [happ]
      refine ⟨hlock.trans hl, fun id => ?_⟩
      rw [hesc, hcount]
      by_cases hid : id = nid
      · subst hid
        simp only [if_pos rfl]
        refine Or.inr ⟨Nat.pos_of_ne_zero hmv, ?_, rfl, by simp⟩
        rw [hnid, idCounter_escrowIdOf]
        omega
      · simp only [if_neg hid]
        rcases hrec id with hz | ⟨ha, hc2, he, hm⟩
        · exact Or.inl hz
        · exact Or.inr ⟨ha, by omega, he, hm⟩
  | release c id ts tok =>
    cases hc : releaseEscrow s c id ts tok with
    | error e => rw [applyOp_release_of_error s c id ts tok e hc]; exact ⟨hl, hrec⟩
    | ok s2 =>
      obtain ⟨-, hact, -, hrel, hret, -, -, hesc, -, hcount, hlock⟩ :=
        releaseEscrow_ok s c id ts tok s2 hc
      have happ : applyOp s (.release c id ts tok) = s2 := by simp [applyOp, hc]
      rw [happ]
      refine ⟨hlock.trans hl, fun j => ?_⟩
      rw [hesc, hcount]
      by_cases hj : j = id
      · subst hj
        simp only [if_pos rfl]
        rcases hrec j with hz | ⟨ha, hc2, -, -⟩
        · rw [hz] at hact; cases hact
        · exact Or.inr ⟨ha, hc2, by simp [hret], by simp [hret]⟩
      · simp only [if_neg hj]
        exact hrec j
  | ret c id ts tok =>
    cases hc : returnEscrow s c id ts tok with
    | error e => rw [applyOp_ret_of_error s c id ts tok e hc]; exact ⟨hl, hrec⟩
    | ok s2 =>
      obtain ⟨-, hact, -, hrel, hret, -, -, hesc, -, hcount, hlock⟩ :=
        returnEscrow_ok s c id ts tok s2 hc
      have happ : applyOp s (.ret c id ts tok) = s2 := by simp [applyOp, hc]
      rw [happ]
      refine ⟨hlock.trans hl, fun j => ?_⟩
      rw [hesc, hcount]
      by_cases hj : j = id
      · subst hj
        simp only [if_pos rfl]
        rcases hrec j with hz | ⟨ha, hc2, -, -⟩
        · rw [hz] at hact; cases hact
        · exact Or.inr ⟨ha, hc2, by simp [hrel], by simp [hrel]⟩
      · simp only [if_neg hj]
        exact hrec j

theorem inv_runOps (s : EscrowState) (h : Inv s) (ops : List Op) :
    Inv (runOps s ops) := by
  induction ops generalizing s with
  | nil => exact h
  | cons op ops ih => exact ih (applyOp s op) (inv_applyOp s h op)

theorem reachable_inv (s : EscrowState) (h : Reachable s) : Inv s := by
  obtain ⟨ops, rfl⟩ := h
  exact inv_runOps initState inv_init ops

theorem runOps_append (s : EscrowState) (as bs : List Op) :
    runOps s (as ++ bs) = runOps (runOps s as) bs := by
  induction as generalizing s with
  | nil => rfl
  | cons op as ih => simp [runOps, ih]

theorem reachable_runOps (s : EscrowState) (h : Reachable s) (ops : List Op) :
    Reachable (runOps s ops) := by
  obtain ⟨as, rfl⟩ := h
  exact ⟨as ++ ops, (runOps_append initState as ops).symm⟩

/-- Frame property: a single transaction never modifies the record of an
already-written, inactive escrow. -/
theorem applyOp_frame (s : EscrowState) (h : Inv s) (id : Nat)
    (hA : (s.escrows id).isActive = false) (hAmt : 0 < (s.escrows id).amount)
    (op : Op) : (applyOp s op).escrows id = s.escrows id := by
  obtain ⟨hl, hrec⟩ := h
  have hfresh : idCounter id < s.escrowCount := by
    rcases hrec id with hz | ⟨-, hc2, -, -⟩
    · rw [hz, zeroTransaction_amount] at hAmt; omega
    · exact hc2
  cases op with
  | create ms mv rcp ts =>
    cases hc : createEscrow s ms mv rcp ts with
    | error e => rw [applyOp_create_of_error s ms mv rcp ts e hc]
    | ok p =>
      obtain ⟨s2, nid⟩ := p
      obtain ⟨-, -, -, hnid, hesc, -, -⟩ := createEscrow_ok s ms mv rcp ts s2 nid hc
      have happ : applyOp s (.create ms mv rcp ts) = s2 := by simp [applyOp, hc]
      rw [happ, hesc]
      have hne : id ≠ nid := by
        intro hcontra
        rw [hcontra, hnid, idCounter_escrowIdOf] at hfresh
        omega
      simp [if_neg hne]
  | release c j ts tok =>
    by_cases hj : j = id
    · subst hj
      rw [applyOp_release_of_error s c j ts tok .escrowNotFound
        (releaseEscrow_inactive s c j ts tok hl hA)]
    · cases hc : releaseEscrow s c j ts tok with
      | error e => rw [applyOp_release_of_error s c j ts tok e hc]
      | ok s2 =>
        obtain ⟨-, -, -, -, -, -, -, hesc, -, -, -⟩ := releaseEscrow_ok s c j ts tok s2 hc
        have happ : applyOp s (.release c j ts tok) = s2 := by simp [applyOp, hc]
        rw [happ, hesc]
        have hne : ¬ id = j := fun hcontra => hj hcontra.symm
        simp [if_neg hne]
  | ret c j ts tok =>
    by_cases hj : j = id
    · subst hj
      rw [applyOp_ret_of_error s c j ts tok .escrowNotFound
        (returnEscrow_inactive s c j ts tok hl hA)]
    · cases hc : returnEscrow s c j ts tok with
      | error e => rw [applyOp_ret_of_error s c j ts tok e hc]
      | ok s2 =>
        obtain ⟨-, -, -, -, -, -, -, hesc, -, -, -⟩ := returnEscrow_ok s c j ts tok s2 hc
        have happ : applyOp s (.ret c j ts tok) = s2 := by simp [applyOp, hc]
        rw [happ, hesc]
        have hne : ¬ id = j := fun hcontra => hj hcontra.symm
        simp [if_neg hne]

/-- Frame property over whole transaction sequences. -/
theorem runOps_frame (s : EscrowState) (h : Inv s) (id : Nat)
    (hA : (s.escrows id).isActive = false) (hAmt : 0 < (s.escrows id).amount)
    (ops : List Op) : (runOps s ops).escrows id = s.escrows id := by
  induction ops generalizing s with
  | nil => rfl
  | cons op ops ih =>
    have hstep := applyOp_frame s h id hA hAmt op
    have := ih (applyOp s op) (inv_applyOp s h op)
      (by rw [hstep]; exact hA) (by rw [hstep]; exact hAmt)
    simpa [runOps, hstep] using this

/-! ### Counter monotonicity and created-id lemmas -/

theorem escrowCount_applyOp (s : EscrowState) (op : Op) :
    s.escrowCount ≤ (applyOp s op).escrowCount := by
  cases op with
  | create ms mv rcp ts =>
    cases hc : createEscrow s ms mv rcp ts with
    | error e => rw [applyOp_create_of_error s ms mv rcp ts e hc]
    | ok p =>
      obtain ⟨s2, nid⟩ := p
      obtain ⟨-, -, -, -, -, hcount, -⟩ := createEscrow_ok s ms mv rcp ts s2 nid hc
      have happ : applyOp s (.create ms mv rcp ts) = s2 := by simp [applyOp, hc]
      rw [happ, hcount]
      omega
  | release c id ts tok =>
    cases hc : releaseEscrow s c id ts tok with
    | error e => rw [applyOp_release_of_error s c id ts tok e hc]
    | ok s2 =>
      obtain ⟨-, -, -, -, -, -, -, -, -, hcount, -⟩ := releaseEscrow_ok s c id ts tok s2 hc
      have happ : applyOp s (.release c id ts tok) = s2 := by simp [applyOp, hc]
      rw [happ, hcount]
  | ret c id ts tok =>
    cases hc : returnEscrow s c id ts tok with
    | error e => rw [applyOp_ret_of_error s c id ts tok e hc]
    | ok s2 =>
      obtain ⟨-, -, -, -, -, -, -, -, -, hcount, -⟩ := returnEscrow_ok s c id ts tok s2 hc
      have happ : applyOp s (.ret c id ts tok) = s2 := by simp [applyOp, hc]
      rw [happ, hcount]

theorem mem_newIds (s : EscrowState) (op : Op) (i : Nat) (h : i ∈ newIds s op) :
    idCounter i = s.escrowCount ∧ s.escrowCount + 1 ≤ (applyOp s op).escrowCount := by
  cases op with
  | create ms mv rcp ts =>
    simp only [newIds] at h
    cases hc : createEscrow s ms mv rcp ts with
    | error e => rw [hc] at h; cases h
    | ok p =>
      obtain ⟨s2, nid⟩ := p
      rw [hc] at h
      obtain ⟨-, -, -, hnid, -, hcount, -⟩ := createEscrow_ok s ms mv rcp ts s2 nid hc
      have happ : applyOp s (.create ms mv rcp ts) = s2 := by simp [applyOp, hc]
      have hi : i = nid := by simpa using h
      subst hi
      rw [hnid, idCounter_escrowIdOf, happ, hcount]
      exact ⟨rfl, le_refl _⟩
  | release c id ts tok => simp [newIds] at h
  | ret c id ts tok => simp [newIds] at h

theorem mem_createdIds_counter (s : EscrowState) (ops : List Op) (i : Nat)
    (h : i ∈ createdIds s ops) : s.escrowCount ≤ idCounter i := by
  induction ops generalizing s with
  | nil => cases h
  | cons op ops ih =>
    simp only [createdIds, List.mem_append] at h
    rcases h with h | h
    · exact (mem_newIds s op i h).1.ge
    · calc s.escrowCount ≤ (applyOp s op).escrowCount := escrowCount_applyOp s op
        _ ≤ idCounter i := ih (applyOp s op) h

/-! ### Transfer-failure lemmas -/

theorem releaseEscrow_tok_false (s : EscrowState) (c id ts : Nat) :
    ∃ e, releaseEscrow s c id ts false = .error e := by
  unfold releaseEscrow
  split_ifs with h1 h2 h3 h4 h5 h6 h7 h8
  all_goals first
  | exact ⟨_, rfl⟩
  | exact h8.elim

theorem returnEscrow_tok_false (s : EscrowState) (c id ts : Nat) :
    ∃ e, returnEscrow s c id ts false = .error e := by
  unfold returnEscrow
  split_ifs with h1 h2 h3 h4 h5 h6 h7
  all_goals first
  | exact ⟨_, rfl⟩
  | exact h7.elim

/-! ### Claim theorems -/

/-- C1: for any escrow id, at most one of `releaseEscrow`/`returnEscrow`
ever succeeds: once a record of a reachable state carries `isReleased` or
`isReturned` (which only a successful release/return sets), then after
any further transaction sequence the record is unchanged and every
`releaseEscrow` or `returnEscrow` attempt on that id reverts (failing the
`escrowExists` check) and leaves the ledger unchanged. -/
theorem c1_release_return_mutual_exclusion (s : EscrowState) (hs : Reachable s)
    (id : Nat)
    (hfin : (s.escrows id).isReleased = true ∨ (s.escrows id).isReturned = true) :
    ∀ ops : List Op, (runOps s ops).escrows id = s.escrows id ∧
      ∀ (c ts : Nat) (tok : Bool),
        releaseEscrow (runOps s ops) c id ts tok = .error .escrowNotFound ∧
        returnEscrow (runOps s ops) c id ts tok = .error .escrowNotFound ∧
        applyOp (runOps s ops) (.release c id ts tok) = runOps s ops ∧
        applyOp (runOps s ops) (.ret c id ts tok) = runOps s ops := by
  have hInv := reachable_inv s hs
  have hA : (s.escrows id).isActive = false := by
    rcases hInv.2 id with hz | ⟨-, -, he, -⟩
    · rw [hz] at hfin; simp [zeroTransaction] at hfin
    · rw [he]; rcases hfin with h | h <;> simp [h]
  have hAmt : 0 < (s.escrows id).amount := by
    rcases hInv.2 id with hz | ⟨ha, -, -, -⟩
    · rw [hz] at hfin; simp [zeroTransaction] at hfin
    · exact ha
  intro ops
  have hframe := runOps_frame s hInv id hA hAmt ops
  have hInv2 := inv_runOps s hInv ops
  have hA2 : ((runOps s ops).escrows id).isActive = false := by rw [hframe]; exact hA
  refine ⟨hframe, fun c ts tok => ?_⟩
  have hrel := releaseEscrow_inactive (runOps s ops) c id ts tok hInv2.1 hA2
  have hret := returnEscrow_inactive (runOps s ops) c id ts tok hInv2.1 hA2
  exact ⟨hrel, hret, applyOp_release_of_error _ c id ts tok _ hrel,
    applyOp_ret_of_error _ c id ts tok _ hret⟩

/-- Witness for C1: after the sender returns escrow `id1`, both a later
release attempt and a later return attempt revert. -/
theorem c1_release_return_mutual_exclusion_witness :
    (state1.escrows id1).isReturned = true ∧
    releaseEscrow state1 2 id1 400 true = .error .escrowNotFound ∧
    returnEscrow state1 1 id1 100 true = .error .escrowNotFound := by
  have h := c1_release_return_mutual_exclusion state1 ⟨trace1, rfl⟩ id1
    (Or.inr (by decide))
  have h0 := h []
  exact ⟨by decide, (h0.2 2 400 true).1, (h0.2 1 100 true).2.1⟩

/-- C2: when the fund transfer fails, the whole call reverts — both
operations return an error and the post-state (record flags included) is
exactly the pre-state. -/
theorem c2_transfer_failure_rollback :
    ∀ (s : EscrowState) (c id ts : Nat),
      (∃ e, releaseEscrow s c id ts false = .error e) ∧
      (∃ e, returnEscrow s c id ts false = .error e) ∧
      applyOp s (.release c id ts false) = s ∧
      applyOp s (.ret c id ts false) = s ∧
      ((applyOp s (.release c id ts false)).escrows id).isReleased
        = (s.escrows id).isReleased ∧
      ((applyOp s (.release c id ts false)).escrows id).isActive
        = (s.escrows id).isActive ∧
      ((applyOp s (.ret c id ts false)).escrows id).isReturned
        = (s.escrows id).isReturned ∧
      ((applyOp s (.ret c id ts false)).escrows id).isActive
        = (s.escrows id).isActive := by
  intro s c id ts
  obtain ⟨e1, he1⟩ := releaseEscrow_tok_false s c id ts
  obtain ⟨e2, he2⟩ := returnEscrow_tok_false s c id ts
  have ha1 := applyOp_release_of_error s c id ts false e1 he1
  have ha2 := applyOp_ret_of_error s c id ts false e2 he2
  exact ⟨⟨e1, he1⟩, ⟨e2, he2⟩, ha1, ha2, by rw [ha1], by rw [ha1],
    by rw [ha2], by rw [ha2]⟩

/-- Counterexample to C3 as stated: `createEscrow` carries no
`nonReentrant` modifier in the source, so with the in-flight guard flag
set it still succeeds instead of being rejected. -/
theorem c3_counterexample :
    lockedState.locked = true ∧
    exceptIsOk (createEscrow lockedState 1 10 2 0) = true :=
  ⟨rfl, rfl⟩

/-- C3 (amended): `releaseEscrow` and `returnEscrow` are rejected with
the reentrancy error and no state change whenever the guard flag is set;
`createEscrow` has no reentrancy guard and succeeds on valid inputs even
while the flag is set. -/
theorem c3_reentrancy_guard (s : EscrowState) (hl : s.locked = true) :
    (∀ (c id ts : Nat) (tok : Bool),
      releaseEscrow s c id ts tok = .error .reentrantCall ∧
      returnEscrow s c id ts tok = .error .reentrantCall ∧
      applyOp s (.release c id ts tok) = s ∧
      applyOp s (.ret c id ts tok) = s) ∧
    (∀ ms mv rcp ts : Nat, mv ≠ 0 → rcp ≠ 0 → rcp ≠ ms →
      exceptIsOk (createEscrow s ms mv rcp ts) = true) := by
  constructor
  · intro c id ts tok
    have hrel : releaseEscrow s c id ts tok = .error .reentrantCall := by
      simp [releaseEscrow, hl]
    have hret : returnEscrow s c id ts tok = .error .reentrantCall := by
      simp [returnEscrow, hl]
    exact ⟨hrel, hret, applyOp_release_of_error s c id ts tok _ hrel,
      applyOp_ret_of_error s c id ts tok _ hret⟩
  · intro ms mv rcp ts hmv hrcp hms
    simp [createEscrow, hmv, hrcp, hms, exceptIsOk]

/-- Witness for C3 (amended), on a state whose guard flag is set. -/
theorem c3_reentrancy_guard_witness :
    lockedState.locked = true ∧
    releaseEscrow lockedState 2 id1 400 true = .error .reentrantCall ∧
    returnEscrow lockedState 1 id1 100 true = .error .reentrantCall ∧
    exceptIsOk (createEscrow lockedState 3 7 4 0) = true := by
  have h := c3_reentrancy_guard lockedState rfl
  exact ⟨rfl, (h.1 2 id1 400 true).1, (h.1 1 id1 100 true).2.1,
    h.2 3 7 4 0 (by decide) (by decide) (by decide)⟩

/-- C4: window disjointness — a successful release needs
`releaseTime ≤ now`, a successful return needs `now < releaseTime`; at
the exact boundary `now = releaseTime` a return (by the sender, on an
active fresh escrow) reverts with the window error while a release (by
the recipient) succeeds. -/
theorem c4_window_disjointness :
    (∀ (s : EscrowState) (c id ts : Nat) (tok : Bool) (s2 : EscrowState),
        releaseEscrow s c id ts tok = .ok s2 →
        (s.escrows id).releaseTime ≤ ts) ∧
    (∀ (s : EscrowState) (c id ts : Nat) (tok : Bool) (s2 : EscrowState),
        returnEscrow s c id ts tok = .ok s2 →
        ts < (s.escrows id).releaseTime) ∧
    (∀ (s : EscrowState) (c id : Nat) (tok : Bool),
        s.locked = false → (s.escrows id).isActive = true →
        c = (s.escrows id).sender → (s.escrows id).isReleased = false →
        (s.escrows id).isReturned = false →
        returnEscrow s c id ((s.escrows id).releaseTime) tok
          = .error .returnWindowExpired) ∧
    (∀ (s : EscrowState) (c id : Nat),
        s.locked = false → (s.escrows id).isActive = true →
        c = (s.escrows id).recipient → (s.escrows id).isReleased = false →
        (s.escrows id).isReturned = false →
        exceptIsOk (releaseEscrow s c id ((s.escrows id).releaseTime) true)
          = true) := by
  refine ⟨?_, ?_, ?_, ?_⟩
  · intro s c id ts tok s2 h
    exact (releaseEscrow_ok s c id ts tok s2 h).2.2.2.2.2.1
  · intro s c id ts tok s2 h
    exact (returnEscrow_ok s c id ts tok s2 h).2.2.2.2.2.1
  · intro s c id tok hl ha hc hrel hret
    simp [returnEscrow, hl, ha, hc, hrel, hret]
  · intro s c id hl ha hc hrel hret
    simp [releaseEscrow, hl, ha, hc, hrel, hret, exceptIsOk]

/-- Witness for C4, at the exact boundary instant `now = releaseTime`
of the freshly created escrow `id1`. -/
theorem c4_window_disjointness_witness :
    state0.locked = false ∧
    (state0.escrows id1).isActive = true ∧
    (1 : Nat) = (state0.escrows id1).sender ∧
    (2 : Nat) = (state0.escrows id1).recipient ∧
    (state0.escrows id1).isReleased = false ∧
    (state0.escrows id1).isReturned = false ∧
    returnEscrow state0 1 id1 ((state0.escrows id1).releaseTime) true
      = .error .returnWindowExpired ∧
    exceptIsOk (releaseEscrow state0 2 id1 ((state0.escrows id1).releaseTime) true)
      = true := by
  have h3 := c4_window_disjointness.2.2.1 state0 1 id1 true rfl (by decide)
    (by decide) (by decide) (by decide)
  have h4 := c4_window_disjointness.2.2.2 state0 2 id1 rfl (by decide)
    (by decide) (by decide) (by decide)
  exact ⟨rfl, by decide, by decide, by decide, by decide, by decide, h3, h4⟩

/-- C5: record-lifecycle invariant — in every reachable state, every
record written by `createEscrow` (equivalently, every record with a
positive amount: creation demands `msg.value > 0` and never-written ids
keep the all-zero struct) has never both terminal flags set, satisfies
`isActive = !(isReleased || isReturned)`, and once inactive is never
changed again by any transaction sequence. -/
theorem c5_record_lifecycle (s : EscrowState) (hs : Reachable s) (id : Nat)
    (hAmt : 0 < (s.escrows id).amount) :
    ¬((s.escrows id).isReleased = true ∧ (s.escrows id).isReturned = true) ∧
    (s.escrows id).isActive
      = (!((s.escrows id).isReleased || (s.escrows id).isReturned)) ∧
    ((s.escrows id).isActive = false →
      ∀ ops : List Op, (runOps s ops).escrows id = s.escrows id) := by
  have hInv := reachable_inv s hs
  rcases hInv.2 id with hz | ⟨-, -, he, hm⟩
  · rw [hz, zeroTransaction_amount] at hAmt
    exact (Nat.lt_irrefl 0 hAmt).elim
  · exact ⟨hm, he, fun hA ops => runOps_frame s hInv id hA hAmt ops⟩

/-- Witness for C5: the returned escrow `id1` is terminal and survives a
further release attempt unchanged. -/
theorem c5_record_lifecycle_witness :
    0 < (state1.escrows id1).amount ∧
    (state1.escrows id1).isActive = false ∧
    ¬((state1.escrows id1).isReleased = true ∧
      (state1.escrows id1).isReturned = true) ∧
    (runOps state1 [.release 2 id1 400 true]).escrows id1
      = state1.escrows id1 := by
  have h := c5_record_lifecycle state1 ⟨trace1, rfl⟩ id1 (by decide)
  exact ⟨by decide, by decide, h.1, h.2.2 (by decide) [.release 2 id1 400 true]⟩

/-- C6: the ids returned by the successful `createEscrow` calls of any
transaction sequence are pairwise distinct — the monotonically
incremented `escrowCount` fed into the id hash makes the derivation
inputs differ even for identical (sender, recipient, amount) at the same
timestamp. -/
theorem c6_created_ids_pairwise_distinct (s : EscrowState) (ops : List Op) :
    (createdIds s ops).Nodup := by
  induction ops generalizing s with
  | nil => exact List.nodup_nil
  | cons op ops ih =>
    simp only [createdIds]
    have htail := ih (applyOp s op)
    cases op with
    | release c id ts tok => simpa [newIds] using htail
    | ret c id ts tok => simpa [newIds] using htail
    | create ms mv rcp ts =>
      cases hc : createEscrow s ms mv rcp ts with
      | error e => simpa [newIds, hc] using htail
      | ok p =>
        obtain ⟨s2, nid⟩ := p
        have happ : applyOp s (.create ms mv rcp ts) = s2 := by simp [applyOp, hc]
        obtain ⟨-, -, -, hnid, -, hcount, -⟩ := createEscrow_ok s ms mv rcp ts s2 nid hc
        have hnew : newIds s (.create ms mv rcp ts) = [nid] := by
          simp [newIds, hc]
        rw [hnew, List.singleton_append, List.nodup_cons]
        refine ⟨fun hmem => ?_, htail⟩
        have hge := mem_createdIds_counter (applyOp s (.create ms mv rcp ts)) ops nid hmem
        rw [happ, hcount] at hge
        have hctr : idCounter nid = s.escrowCount := by
          rw [hnid, idCounter_escrowIdOf]
        omega

/-- C7: `createEscrow` rejects with no state change when the amount is
zero, the recipient is the zero address, or the recipient is the caller;
otherwise it stores the new record with `createdAt = now`,
`releaseTime = now + 300`, flags `(false, false, true)`, appends the
fresh id to both parties' index sequences, captures the value, and
returns the id. -/
theorem c7_createEscrow_spec :
    (∀ (s : EscrowState) (ms mv rcp ts : Nat),
        (mv = 0 ∨ rcp = 0 ∨ rcp = ms) →
        (∃ e, createEscrow s ms mv rcp ts = .error e) ∧
        applyOp s (.create ms mv rcp ts) = s) ∧
    (∀ (s : EscrowState) (ms mv rcp ts : Nat),
        mv ≠ 0 → rcp ≠ 0 → rcp ≠ ms →
        ∃ s2, createEscrow s ms mv rcp ts
            = .ok (s2, escrowIdOf ms rcp mv ts s.escrowCount) ∧
          s2.escrows (escrowIdOf ms rcp mv ts s.escrowCount)
            = ⟨ms, rcp, mv, ts, ts + 300, false, false, true⟩ ∧
          s2.userEscrows ms
            = s.userEscrows ms ++ [escrowIdOf ms rcp mv ts s.escrowCount] ∧
          s2.userEscrows rcp
            = s.userEscrows rcp ++ [escrowIdOf ms rcp mv ts s.escrowCount] ∧
          s2.escrowCount = s.escrowCount + 1 ∧
          s2.balance = s.balance + mv) := by
  constructor
  · intro s ms mv rcp ts hbad
    have herr : ∃ e, createEscrow s ms mv rcp ts = .error e := by
      unfold createEscrow
      split_ifs with h1 h2 h3
      · exact ⟨_, rfl⟩
      · exact ⟨_, rfl⟩
      · exact ⟨_, rfl⟩
      · rcases hbad with h | h | h
        · exact (h1 h).elim
        · exact (h2 h).elim
        · exact (h3 h).elim
    obtain ⟨e, he⟩ := herr
    exact ⟨⟨e, he⟩, applyOp_create_of_error s ms mv rcp ts e he⟩
  · intro s ms mv rcp ts hmv hrcp hms
    have hms2 : ¬ ms = rcp := fun h => hms h.symm
    refine ⟨{ s with
        escrows := fun i => if i = escrowIdOf ms rcp mv ts s.escrowCount then
            ⟨ms, rcp, mv, ts, ts + RETURN_WINDOW, false, false, true⟩
          else s.escrows i,
        userEscrows := fun u => if u = rcp then
            (if u = ms then
              s.userEscrows u ++ [escrowIdOf ms rcp mv ts s.escrowCount]
            else s.userEscrows u) ++ [escrowIdOf ms rcp mv ts s.escrowCount]
          else (if u = ms then
              s.userEscrows u ++ [escrowIdOf ms rcp mv ts s.escrowCount]
            else s.userEscrows u),
        escrowCount := s.escrowCount + 1,
        balance := s.balance + mv }, ?_, ?_, ?_, ?_, rfl, rfl⟩
    · unfold createEscrow
      rw [if_neg hmv, if_neg hrcp, if_neg hms]
    · simp [RETURN_WINDOW]
    · simp [if_neg hms2]
    · simp [if_neg hms]

/-- Witness for C7: a zero-amount creation changes nothing, and a valid
creation stores the expected record. -/
theorem c7_createEscrow_spec_witness :
    ((0 : Nat) = 0 ∨ (2 : Nat) = 0 ∨ (2 : Nat) = 1) ∧
    applyOp initState (.create 1 0 2 0) = initState ∧
    exceptIsOk (createEscrow initState 1 10 2 0) = true ∧
    getUserEscrows (applyOp initState (.create 1 10 2 0)) 1 = [id1] := by
  have h1 := c7_createEscrow_spec.1 initState 1 0 2 0 (Or.inl rfl)
  have h2 := c7_createEscrow_spec.2 initState 1 10 2 0 (by decide) (by decide)
    (by decide)
  obtain ⟨s2, heq, -, hums, -, -, -⟩ := h2
  refine ⟨Or.inl rfl, h1.2, ?_, ?_⟩
  · rw [heq]; rfl
  · have happ : applyOp initState (.create 1 10 2 0) = s2 := by
      simp [applyOp, heq]
    rw [getUserEscrows, happ, hums]
    rfl

/-- Counterexample to C8 as stated: on an already-released escrow the
revert reason is the not-found one ("Escrow does not exist"), because the
`escrowExists` modifier checks `isActive` before the body ever reaches
the "Already released"/"Already returned" requires; the reported error is
not the AlreadyFinalized one the claim names. -/
theorem c8_counterexample :
    (state2.escrows id1).isReleased = true ∧
    releaseEscrow state2 2 id1 400 true = .error .escrowNotFound ∧
    returnEscrow state2 1 id1 250 true = .error .escrowNotFound ∧
    EscrowError.escrowNotFound ≠ EscrowError.alreadyReleased ∧
    EscrowError.escrowNotFound ≠ EscrowError.alreadyReturned := by
  refine ⟨by decide, rfl, rfl, by decide, by decide⟩

/-- C8 (amended): a `releaseEscrow` or `returnEscrow` call on an escrow
that has already been released or returned is rejected, but with the
not-found error (`escrowExists` fires on `isActive = false` first); the
distinct already-released/already-returned errors are never reached for
a finalized escrow. -/
theorem c8_finalized_rejected_with_not_found (s : EscrowState)
    (hs : Reachable s) (id : Nat)
    (hfin : (s.escrows id).isReleased = true ∨ (s.escrows id).isReturned = true) :
    ∀ (c ts : Nat) (tok : Bool),
      releaseEscrow s c id ts tok = .error .escrowNotFound ∧
      returnEscrow s c id ts tok = .error .escrowNotFound ∧
      EscrowError.escrowNotFound ≠ EscrowError.alreadyReleased ∧
      EscrowError.escrowNotFound ≠ EscrowError.alreadyReturned := by
  have hInv := reachable_inv s hs
  have hA : (s.escrows id).isActive = false := by
    rcases hInv.2 id with hz | ⟨-, -, he, -⟩
    · rw [hz] at hfin; simp [zeroTransaction] at hfin
    · rw [he]; rcases hfin with h | h <;> simp [h]
  intro c ts tok
  exact ⟨releaseEscrow_inactive s c id ts tok hInv.1 hA,
    returnEscrow_inactive s c id ts tok hInv.1 hA, by decide, by decide⟩

/-- Witness for C8 (amended), on the state where `id1` was released. -/
theorem c8_finalized_rejected_with_not_found_witness :
    (state2.escrows id1).isReleased = true ∧
    releaseEscrow state2 2 id1 600 true = .error .escrowNotFound ∧
    returnEscrow state2 1 id1 600 true = .error .escrowNotFound := by
  have h := c8_finalized_rejected_with_not_found state2 ⟨trace2, rfl⟩ id1
    (Or.inl (by decide))
  exact ⟨by decide, (h 2 600 true).1, (h 1 600 true).2.1⟩

/-- C9: `getEscrow` is a pure read (a function of the state that
performs no mutation) returning the full stored record; for an id with
no record it returns the all-zero struct, which is distinguishable from
every stored record because creation requires a positive amount. -/
theorem c9_getEscrow_spec (s : EscrowState) (hs : Reachable s) (id : Nat) :
    getEscrow s id = s.escrows id ∧
    (0 < (s.escrows id).amount → getEscrow s id ≠ zeroTransaction) ∧
    ((s.escrows id).amount = 0 → getEscrow s id = zeroTransaction) := by
  have hInv := reachable_inv s hs
  refine ⟨rfl, ?_, ?_⟩
  · intro hAmt hcontra
    rw [getEscrow] at hcontra
    rw [hcontra, zeroTransaction_amount] at hAmt
    exact Nat.lt_irrefl 0 hAmt
  · intro hAmt
    rcases hInv.2 id with hz | ⟨ha, -, -, -⟩
    · exact hz
    · omega

/-- Witness for C9: on `state1`, the never-created id 0 yields the
all-zero struct while the created id `id1` does not. -/
theorem c9_getEscrow_spec_witness :
    getEscrow state1 0 = zeroTransaction ∧
    getEscrow state1 id1 ≠ zeroTransaction := by
  have h0 := c9_getEscrow_spec state1 ⟨trace1, rfl⟩ 0
  have h1 := c9_getEscrow_spec state1 ⟨trace1, rfl⟩ id1
  exact ⟨h0.2.2 (by decide), h1.2.1 (by decide)⟩

/-- C10: the read-only queries are total: in any reachable state every
id holds either the all-zero struct or a created record; on the all-zero
struct `getEscrow` returns it, `getEscrowStatus` returns
`(false, false, false, 0)` for every clock value, and `canReturn` and
`canRelease` return `false`; and `timeRemaining` is
`releaseTime - now` exactly when `now < releaseTime` and `0` otherwise,
so the `Nat` subtraction never underflows. -/
theorem c10_views_total (s : EscrowState) (hs : Reachable s) (id ts : Nat) :
    (s.escrows id = zeroTransaction ∨ 0 < (s.escrows id).amount) ∧
    (s.escrows id = zeroTransaction →
      getEscrow s id = zeroTransaction ∧
      getEscrowStatus s ts id = (false, false, false, 0) ∧
      canReturn s ts id = false ∧
      canRelease s ts id = false) ∧
    (getEscrowStatus s ts id).2.2.2
      = (if ts < (s.escrows id).releaseTime
          then (s.escrows id).releaseTime - ts else 0) := by
  have hInv := reachable_inv s hs
  refine ⟨?_, ?_, rfl⟩
  · rcases hInv.2 id with hz | ⟨ha, -, -, -⟩
    · exact Or.inl hz
    · exact Or.inr ha
  · intro hz
    refine ⟨hz, ?_, ?_, ?_⟩
    · simp [getEscrowStatus, hz, zeroTransaction]
    · simp [canReturn, hz, zeroTransaction]
    · simp [canRelease, hz, zeroTransaction]

/-- Witness for C10: the never-created id 0 on `state1`, clock 7. -/
theorem c10_views_total_witness :
    state1.escrows 0 = zeroTransaction ∧
    getEscrow state1 0 = zeroTransaction ∧
    getEscrowStatus state1 7 0 = (false, false, false, 0) ∧
    canReturn state1 7 0 = false ∧
    canRelease state1 7 0 = false := by
  have h := c10_views_total state1 ⟨trace1, rfl⟩ 0 7
  have hz : state1.escrows 0 = zeroTransaction := by decide
  obtain ⟨-, h2, -⟩ := h
  obtain ⟨a, b, c, d⟩ := h2 hz
  exact ⟨hz, a, b, c, d⟩

end Avalanche
